import Mathlib

/-!
Verification of `rest_framework_mongoengine/utils.py`.

The module is a metadata adapter between mongoengine document models and
DRF serializer fields.  We shallowly embed the Python objects the module
manipulates (model classes, field-definition objects, Python dicts) and
translate the four functions `_resolve_model`, `get_field_info`,
`is_abstract_model` and `get_field_kwargs` as executable Lean functions,
then prove the spec's claims about them.
-/

/-- A scalar Python value, as used for field defaults and choice entries.
Truthiness follows Python: `None`, `False`, `0` and `""` are falsy. -/
inductive PyValue where
  | pyNone
  | pyBool (b : Bool)
  | pyInt (i : Int)
  | pyStr (s : String)
deriving DecidableEq, Repr

/-- Python truthiness of a scalar value. -/
def truthy : PyValue → Bool
  | .pyNone => false
  | .pyBool b => b
  | .pyInt i => i != 0
  | .pyStr s => s != ""

/-- The concrete mongoengine field classes that the module's `isinstance`
checks distinguish.  `listField`/`dictField` stand for the container field
classes deriving from `ComplexBaseField`; `otherField` is any other
non-container field class. -/
inductive FieldType where
  | intField
  | longField
  | floatField
  | decimalField
  | stringField
  | sequenceField
  | listField
  | dictField
  | otherField
deriving DecidableEq, Repr

/-- `isinstance(f, me_fields.DecimalField)`. -/
def isDecimalField : FieldType → Bool
  | .decimalField => true
  | _ => false

/-- `isinstance(f, me_fields.SequenceField)`. -/
def isSequenceField : FieldType → Bool
  | .sequenceField => true
  | _ => false

/-- `isinstance(f, me_fields.ComplexBaseField)`: the container field
classes (ListField, DictField, ...). -/
def isComplexBaseField : FieldType → Bool
  | .listField => true
  | .dictField => true
  | _ => false

/-- `isinstance(f, me_fields.StringField)`. -/
def isStringField : FieldType → Bool
  | .stringField => true
  | _ => false

/-- `isinstance(f, NUMERIC_FIELD_TYPES)` where
`NUMERIC_FIELD_TYPES = (IntField, LongField, FloatField, DecimalField)`. -/
def isNumericField : FieldType → Bool
  | .intField => true
  | .longField => true
  | .floatField => true
  | .decimalField => true
  | _ => false

/-- An entry of the pending validator list: either a field's built-in
validation callable (identified by a numeric id) or the
`UniqueValidator(queryset=..., message=None)` built by `get_field_kwargs`.
The queryset (`model_field.model._default_manager`, the owning
collection's manager) is identified by a numeric id. -/
inductive Validator where
  | builtin (f : Nat)
  | unique (queryset : Nat) (message : Option String)
deriving DecidableEq, Repr

/-- A mongoengine field-definition object, with the attribute surface read
by `utils.py`.  `verbose_name`/`help_text` conflate Python `None` and `""`
(both falsy, treated identically by the code); `validation` is the id of
the validation callable or `none`; `owner_default_manager` identifies
`model_field.model._default_manager`. -/
structure ModelField where
  ftype : FieldType
  name : String
  required : Bool
  default : PyValue
  null : Bool
  choices : List PyValue
  unique : Bool
  primary_key : Bool
  db_field : String
  verbose_name : String
  help_text : String
  validation : Option Nat
  max_length : Option Int
  min_length : Option Int
  max_value : Option Int
  min_value : Option Int
  precision : Nat
  owner_default_manager : Nat
deriving DecidableEq, Repr

/-- A value stored in the kwargs dict built by `get_field_kwargs`:
Python is dynamically typed, so the dict is heterogeneous. -/
inductive KwargValue where
  | vModelField (f : ModelField)
  | vStr (s : String)
  | vBool (b : Bool)
  | vNat (n : Nat)
  | vInt (i : Int)
  | vPy (v : PyValue)
  | vChoices (cs : List PyValue)
  | vValidators (vs : List Validator)
deriving DecidableEq, Repr

/-- A Python class object, as far as `_resolve_model` inspects it:
an identity and whether it is a subclass of `mongoengine.BaseDocument`. -/
structure PyClass where
  id : Nat
  isBaseDocumentSubclass : Bool
deriving DecidableEq, Repr

/-- A possible argument to `_resolve_model`: a string, a class object, or
any other (non-string, non-class) Python object. -/
inductive ResolveObj where
  | str (s : String)
  | cls (c : PyClass)
  | other (n : Nat)
deriving DecidableEq, Repr

/-- The two error kinds `_resolve_model` raises.  `improperlyConfigured`
carries the two segments interpolated into its message; `valueError`
carries the offending input interpolated into
`"{0} is not a MongoDB Document"`. -/
inductive ResolveError where
  | improperlyConfigured (app_name model_name : String)
  | valueError (obj : ResolveObj)
deriving DecidableEq, Repr

/-- A mongoengine model class, with the attribute surface read by
`get_field_info`: whether it subclasses `EmbeddedDocument`, the
`_meta['id_field']` entry, the `_fields` dict (name → field definition)
and the `_fields_ordered` tuple of names in declaration order. -/
structure Model where
  isEmbeddedDocument : Bool
  idField : String
  fieldsDict : List (String × ModelField)
  fieldsOrdered : List String
deriving DecidableEq, Repr

/-- The `RelationInfo` namedtuple.  Declared by the module but never
populated. -/
structure RelationInfo where
  model_field : Option ModelField
  related : Option PyClass
  to_many : Bool
  has_through_model : Bool
deriving DecidableEq, Repr

/-- The `FieldInfo` namedtuple returned by `get_field_info`.  Ordered
dicts are embedded as association lists in insertion order; the values of
`fields_and_pk` are `Option ModelField` because the pk slot may hold
Python `None`. -/
structure FieldInfo where
  pk : Option ModelField
  fields : List (String × ModelField)
  forward_relations : List (String × RelationInfo)
  reverse_relations : List (String × RelationInfo)
  fields_and_pk : List (String × Option ModelField)
  relations : List (String × RelationInfo)
deriving DecidableEq, Repr

/-- Python dict assignment `d[k] = v` on an insertion-ordered dict: an
existing key keeps its position and gets the new value; a new key is
appended. -/
def odAssign (d : List (String × α)) (k : String) (v : α) : List (String × α) :=
  if d.any (fun p => p.1 == k) then
    d.map (fun p => if p.1 == k then (k, v) else p)
  else
    d ++ [(k, v)]

/-- Python dict lookup `d[k]`, `none` when the key is missing. -/
def odLookup (d : List (String × α)) (k : String) : Option α :=
  (d.find? (fun p => p.1 == k)).map (fun p => p.2)

/-- The key sequence of an insertion-ordered dict. -/
def odKeys (d : List (String × α)) : List String :=
  d.map (fun p => p.1)

/-- Python `d.update(e)`: assign every entry of `e` into `d` in order. -/
def odUpdate (d e : List (String × α)) : List (String × α) :=
  e.foldl (fun acc p => odAssign acc p.1 p.2) d

/-- Split a character list at every `'.'`, Python `str.split('.')`
semantics (an empty input yields one empty segment). -/
def splitDotChars : List Char → List (List Char)
  | [] => [[]]
  | c :: cs =>
    let r := splitDotChars cs
    if c = '.' then
      [] :: r
    else
      match r with
      | [] => [[c]]
      | h :: t => (c :: h) :: t

/-- Python `s.split('.')`. -/
def pySplitDot (s : String) : List String :=
  (splitDotChars s.toList).map (fun l => String.mk l)

/-- `mongoengine.base.common.get_document`, embedded as a lookup in the
document registry (name → document class), `none` when the name is not
registered — the case `_resolve_model` guards with `is None`. -/
def get_document (registry : List (String × PyClass)) (name : String) : Option PyClass :=
  (registry.find? (fun p => p.1 == name)).map (fun p => p.2)

/-- `_resolve_model(obj)`: a two-segment dotted string is resolved through
the document registry (`ImproperlyConfigured` when unregistered); a class
object is accepted iff it subclasses `BaseDocument`; everything else
raises `ValueError` naming the input. -/
def _resolve_model (registry : List (String × PyClass)) (obj : ResolveObj) :
    Except ResolveError PyClass :=
  match obj with
  | .str s =>
    match pySplitDot s with
    | [app_name, model_name] =>
      match get_document registry model_name with
      | some resolved_model => .ok resolved_model
      | none => .error (.improperlyConfigured app_name model_name)
    | _ => .error (.valueError obj)
  | .cls c =>
    if c.isBaseDocumentSubclass then .ok c else .error (.valueError obj)
  | .other n => .error (.valueError (.other n))

/-- The loop `for field_name in model._fields_ordered: fields[field_name]
= model._fields[field_name]`; `none` models the `KeyError` raised when a
listed name is missing from `_fields`. -/
def buildFields (dict : List (String × ModelField)) :
    List String → List (String × ModelField) → Option (List (String × ModelField))
  | [], acc => some acc
  | n :: rest, acc =>
    match odLookup dict n with
    | some f => buildFields dict rest (odAssign acc n f)
    | none => none

/-- `getattr(pk, 'name', 'pk')`: Python `None` has no `name` attribute. -/
def pkNameAttr : Option ModelField → String
  | some f => f.name
  | none => "pk"

/-- `get_field_info(model)`.  `none` models a `KeyError` escaping from the
`_fields` dict lookups. -/
def get_field_info (model : Model) : Option FieldInfo :=
  let pkOpt : Option (Option ModelField) :=
    if model.isEmbeddedDocument then
      some none
    else
      match odLookup model.fieldsDict model.idField with
      | some f => some (some f)
      | none => none
  match pkOpt with
  | none => none
  | some pk =>
    match buildFields model.fieldsDict model.fieldsOrdered [] with
    | none => none
    | some fields =>
      let forward_relations : List (String × RelationInfo) := []
      let reverse_relations : List (String × RelationInfo) := []
      let fields_and_pk := odAssign ([] : List (String × Option ModelField)) "pk" pk
      let fields_and_pk := odAssign fields_and_pk (pkNameAttr pk) pk
      let fields_and_pk := odUpdate fields_and_pk (fields.map (fun p => (p.1, some p.2)))
      let relations := forward_relations ++ reverse_relations
      some ⟨pk, fields, forward_relations, reverse_relations, fields_and_pk, relations⟩

/-- Python `len(str(v))` for an integer value (a minus sign counts). -/
def pyLenStr (v : Int) : Nat :=
  (toString v).length

/-- `get_field_kwargs(field_name, model_field)`.  The two helpers imported
from DRF, `needs_label` and `capfirst`, are passed in as parameters; the
result is the kwargs dict in insertion order. -/
def get_field_kwargs (needsLabel : ModelField → String → Bool) (capfirst : String → String)
    (field_name : String) (model_field : ModelField) : List (String × KwargValue) :=
  let validator_kwarg : List Validator :=
    match model_field.validation with
    | some f => [Validator.builtin f]
    | none => []
  let kwargs := odAssign ([] : List (String × KwargValue)) "model_field"
    (KwargValue.vModelField model_field)
  let kwargs :=
    if model_field.verbose_name != "" && needsLabel model_field field_name then
      odAssign kwargs "label" (KwargValue.vStr (capfirst model_field.verbose_name))
    else kwargs
  let kwargs :=
    if model_field.help_text != "" then
      odAssign kwargs "help_text" (KwargValue.vStr model_field.help_text)
    else kwargs
  let kwargs :=
    if isDecimalField model_field.ftype then
      let precision := model_field.precision
      let max_length : Nat :=
        match model_field.max_value with
        | some v => pyLenStr v + precision
        | none => 65536
      odAssign (odAssign kwargs "decimal_places" (KwargValue.vNat precision))
        "max_digits" (KwargValue.vNat max_length)
    else kwargs
  if isSequenceField model_field.ftype || model_field.primary_key
      || (model_field.db_field == "_id") then
    odAssign kwargs "read_only" (KwargValue.vBool true)
  else
    let kwargs := odAssign kwargs "required" (KwargValue.vBool model_field.required)
    let kwargs :=
      if truthy model_field.default then
        odAssign kwargs "required" (KwargValue.vBool false)
      else kwargs
    let kwargs :=
      if truthy model_field.default && !isComplexBaseField model_field.ftype then
        odAssign kwargs "default" (KwargValue.vPy model_field.default)
      else kwargs
    let kwargs :=
      if model_field.null then
        odAssign kwargs "allow_null" (KwargValue.vBool true)
      else kwargs
    if !model_field.choices.isEmpty then
      odAssign kwargs "choices" (KwargValue.vChoices model_field.choices)
    else
      let kwargs :=
        match model_field.max_length with
        | some v =>
          if isStringField model_field.ftype then
            odAssign kwargs "max_length" (KwargValue.vInt v)
          else kwargs
        | none => kwargs
      let kwargs :=
        match model_field.min_length with
        | some v =>
          if isStringField model_field.ftype then
            odAssign kwargs "min_length" (KwargValue.vInt v)
          else kwargs
        | none => kwargs
      let kwargs :=
        match model_field.max_value with
        | some v =>
          if isNumericField model_field.ftype then
            odAssign kwargs "max_value" (KwargValue.vInt v)
          else kwargs
        | none => kwargs
      let kwargs :=
        match model_field.min_value with
        | some v =>
          if isNumericField model_field.ftype then
            odAssign kwargs "min_value" (KwargValue.vInt v)
          else kwargs
        | none => kwargs
      let validator_kwarg :=
        if model_field.unique then
          validator_kwarg ++ [Validator.unique model_field.owner_default_manager none]
        else validator_kwarg
      if !validator_kwarg.isEmpty then
        odAssign kwargs "validators" (KwargValue.vValidators validator_kwarg)
      else kwargs

/-! ### Dict lemmas -/

theorem odLookup_nil (k : String) : odLookup ([] : List (String × α)) k = none := rfl

theorem find?_map_update (d : List (String × α)) (k : String) (v : α)
    (h : d.any (fun p => p.1 == k) = true) :
    odLookup (d.map (fun p => if p.1 == k then (k, v) else p)) k = some v := by
  induction d with
  | nil => simp at h
  | cons a d ih =>
    by_cases ha : a.1 = k
    · simp [odLookup, List.find?, ha]
    · have ha' : (a.1 == k) = false := by simpa using ha
      simp only [List.any_cons, ha', Bool.false_or] at h
      simpa [odLookup, List.find?, ha'] using ih h

theorem odLookup_odAssign_self (d : List (String × α)) (k : String) (v : α) :
    odLookup (odAssign d k v) k = some v := by
  by_cases h : d.any (fun p => p.1 == k) = true
  · simpa [odAssign, h] using find?_map_update d k v h
  · have h' : d.any (fun p => p.1 == k) = false := Bool.eq_false_iff.mpr h
    have hnone : d.find? (fun p => p.1 == k) = none := by
      rw [List.find?_eq_none]
      exact List.any_eq_false.mp h'
    simp [odAssign, h', odLookup, List.find?_append, hnone]

theorem odLookup_odAssign_ne (d : List (String × α)) (k k' : String) (v : α)
    (h : (k' == k) = false) :
    odLookup (odAssign d k v) k' = odLookup d k' := by
  have hne : k' ≠ k := by simpa using h
  have hkk' : (k == k') = false := beq_eq_false_iff_ne.mpr (Ne.symm hne)
  by_cases hany : d.any (fun p => p.1 == k) = true
  · simp only [odAssign, hany, if_true]
    rw [odLookup, List.find?_map]
    have hfun : ((fun p : String × α => p.1 == k') ∘
        (fun p : String × α => if p.1 == k then (k, v) else p)) =
        (fun p : String × α => p.1 == k') := by
      funext p
      by_cases hp : p.1 = k
      · simp [hp, Function.comp, hkk']
      · simp [Function.comp, hp]
    rw [hfun]
    rcases hfind : d.find? (fun p : String × α => p.1 == k') with _ | q
    · simp [odLookup, hfind]
    · have hq : q.1 = k' := by simpa using List.find?_some hfind
      simp [odLookup, hfind, hq, hne]
  · have h' : d.any (fun p => p.1 == k) = false := Bool.eq_false_iff.mpr hany
    have hsingle : List.find? (fun p : String × α => p.1 == k') [(k, v)] = none := by
      simp [List.find?, hkk']
    simp [odAssign, h', odLookup, List.find?_append, hsingle]

theorem fst_update (k : String) (v : α) (p : String × α) :
    (if p.1 == k then (k, v) else p).1 = p.1 := by
  by_cases hp : p.1 = k <;> simp [hp]

theorem any_key_eq_true_iff (d : List (String × α)) (k : String) :
    d.any (fun p => p.1 == k) = true ↔ k ∈ odKeys d := by
  simp only [List.any_eq_true, odKeys, List.mem_map, beq_iff_eq]

theorem any_key_eq_false_iff (d : List (String × α)) (k : String) :
    d.any (fun p => p.1 == k) = false ↔ k ∉ odKeys d := by
  simp only [Bool.eq_false_iff, ne_eq, any_key_eq_true_iff]

theorem odKeys_odAssign (d : List (String × α)) (k : String) (v : α) :
    odKeys (odAssign d k v) =
      if k ∈ odKeys d then odKeys d else odKeys d ++ [k] := by
  by_cases h : k ∈ odKeys d
  · have ha := (any_key_eq_true_iff d k).mpr h
    rw [if_pos h]
    simp only [odAssign, ha, if_true, odKeys, List.map_map]
    apply List.map_congr_left
    intro p _
    exact fst_update k v p
  · have ha := (any_key_eq_false_iff d k).mpr h
    rw [if_neg h]
    simp [odAssign, ha, odKeys]

theorem length_odAssign (d : List (String × α)) (k : String) (v : α) :
    (odAssign d k v).length = if k ∈ odKeys d then d.length else d.length + 1 := by
  by_cases h : k ∈ odKeys d
  · have ha := (any_key_eq_true_iff d k).mpr h
    rw [if_pos h]
    simp [odAssign, ha]
  · have ha := (any_key_eq_false_iff d k).mpr h
    rw [if_neg h]
    simp [odAssign, ha]

theorem odAssign_of_not_mem (d : List (String × α)) (k : String) (v : α)
    (h : k ∉ odKeys d) :
    odAssign d k v = d ++ [(k, v)] := by
  have ha := (any_key_eq_false_iff d k).mpr h
  simp [odAssign, ha]

theorem odLookup_eq_none_iff (d : List (String × α)) (k : String) :
    odLookup d k = none ↔ k ∉ odKeys d := by
  rw [odLookup, Option.map_eq_none', List.find?_eq_none, ← List.any_eq_false,
    any_key_eq_false_iff]

theorem odUpdate_cons (d : List (String × α)) (p : String × α) (e : List (String × α)) :
    odUpdate d (p :: e) = odUpdate (odAssign d p.1 p.2) e := rfl

theorem odKeys_cons (p : String × α) (e : List (String × α)) :
    odKeys (p :: e) = p.1 :: odKeys e := rfl

theorem odKeys_append (d e : List (String × α)) :
    odKeys (d ++ e) = odKeys d ++ odKeys e := by
  simp [odKeys]

theorem odLookup_odUpdate_not_mem (e d : List (String × α)) (k : String)
    (h : k ∉ odKeys e) :
    odLookup (odUpdate d e) k = odLookup d k := by
  induction e generalizing d with
  | nil => rfl
  | cons p e ih =>
    rw [odKeys_cons, List.mem_cons, not_or] at h
    rw [odUpdate_cons, ih _ h.2,
      odLookup_odAssign_ne _ _ _ _ (beq_eq_false_iff_ne.mpr h.1)]

theorem odLookup_odUpdate_mem (e d : List (String × α)) (k : String) (v : α)
    (hmem : (k, v) ∈ e) (hnd : (odKeys e).Nodup) :
    odLookup (odUpdate d e) k = some v := by
  induction e generalizing d with
  | nil => cases hmem
  | cons p e ih =>
    rw [odKeys_cons, List.nodup_cons] at hnd
    rcases List.mem_cons.mp hmem with rfl | hmem'
    · rw [odUpdate_cons, odLookup_odUpdate_not_mem e _ k hnd.1]
      exact odLookup_odAssign_self d k v
    · exact ih _ hmem' hnd.2

theorem odUpdate_append (e d : List (String × α))
    (hdisj : ∀ k ∈ odKeys e, k ∉ odKeys d) (hnd : (odKeys e).Nodup) :
    odUpdate d e = d ++ e := by
  induction e generalizing d with
  | nil => simp [odUpdate]
  | cons p e ih =>
    rw [odKeys_cons, List.nodup_cons] at hnd
    have hp1 : p.1 ∉ odKeys d := hdisj p.1 (by rw [odKeys_cons]; exact List.mem_cons_self _ _)
    rw [odUpdate_cons, odAssign_of_not_mem d p.1 p.2 hp1]
    rw [ih (d ++ [(p.1, p.2)]) ?hdisj2 hnd.2]
    · simp
    case hdisj2 =>
      intro k hk
      have hkd : k ∉ odKeys d := hdisj k (by rw [odKeys_cons]; exact List.mem_cons_of_mem _ hk)
      have hkp : k ≠ p.1 := fun hkp => hnd.1 (hkp ▸ hk)
      rw [odKeys_append, odKeys_cons]
      intro hmem2
      rcases List.mem_append.mp hmem2 with h1 | h1
      · exact hkd h1
      · rcases List.mem_cons.mp h1 with h2 | h2
        · exact hkp h2
        · cases h2

/-! ### get_field_info machinery -/

theorem buildFields_sound (dict : List (String × ModelField)) (ord : List String)
    (acc fs : List (String × ModelField))
    (h : buildFields dict ord acc = some fs)
    (hnd : ord.Nodup) (hfresh : ∀ n ∈ ord, n ∉ odKeys acc) :
    odKeys fs = odKeys acc ++ ord ∧
    (∀ n f, (n, f) ∈ fs → (n, f) ∈ acc ∨ odLookup dict n = some f) := by
  induction ord generalizing acc with
  | nil =>
    cases h
    exact ⟨by simp, fun n f hf => Or.inl hf⟩
  | cons n rest ih =>
    rw [List.nodup_cons] at hnd
    rcases hlk : odLookup dict n with _ | f
    · rw [buildFields, hlk] at h
      cases h
    · rw [buildFields, hlk] at h
      have hfn : n ∉ odKeys acc := hfresh n (List.mem_cons_self _ _)
      have hacc : odAssign acc n f = acc ++ [(n, f)] := odAssign_of_not_mem acc n f hfn
      have hfresh2 : ∀ m ∈ rest, m ∉ odKeys (odAssign acc n f) := by
        intro m hm
        rw [hacc, odKeys_append]
        intro hmem2
        rcases List.mem_append.mp hmem2 with h1 | h1
        · exact hfresh m (List.mem_cons_of_mem _ hm) h1
        · have : m = n := by simpa [odKeys] using h1
          exact hnd.1 (this ▸ hm)
      obtain ⟨hkeys, hmem⟩ := ih (odAssign acc n f) h hnd.2 hfresh2
      constructor
      · rw [hkeys, hacc, odKeys_append]
        simp [odKeys]
      · intro m g hg
        rcases hmem m g hg with h1 | h1
        · rw [hacc] at h1
          rcases List.mem_append.mp h1 with h2 | h2
          · exact Or.inl h2
          · have : (m, g) = (n, f) := by simpa using h2
            rw [show m = n from (Prod.mk.injEq _ _ _ _ ▸ this).1,
              show g = f from (Prod.mk.injEq _ _ _ _ ▸ this).2]
            exact Or.inr hlk
        · exact Or.inr h1

theorem get_field_info_char (model : Model) (fi : FieldInfo)
    (h : get_field_info model = some fi) :
    buildFields model.fieldsDict model.fieldsOrdered [] = some fi.fields ∧
    (model.isEmbeddedDocument = true → fi.pk = none) ∧
    (model.isEmbeddedDocument = false →
      odLookup model.fieldsDict model.idField = fi.pk ∧ fi.pk ≠ none) ∧
    fi.forward_relations = [] ∧
    fi.reverse_relations = [] ∧
    fi.relations = [] ∧
    fi.fields_and_pk =
      odUpdate (odAssign (odAssign [] "pk" fi.pk) (pkNameAttr fi.pk) fi.pk)
        (fi.fields.map (fun p => (p.1, some p.2))) := by
  rcases hemb : model.isEmbeddedDocument with _ | _
  · rw [get_field_info] at h
    rw [hemb] at h
    simp only [Bool.false_eq_true, if_false] at h
    rcases hlk : odLookup model.fieldsDict model.idField with _ | f
    · rw [hlk] at h
      cases h
    · rw [hlk] at h
      rcases hbf : buildFields model.fieldsDict model.fieldsOrdered [] with _ | fields
      · rw [hbf] at h
        cases h
      · rw [hbf] at h
        cases h
        refine ⟨rfl, fun hc => Bool.noConfusion hc, fun _ => ⟨rfl, fun hno => Option.noConfusion hno⟩, rfl, rfl, rfl, rfl⟩
  · rw [get_field_info] at h
    rw [hemb] at h
    simp only [if_true] at h
    rcases hbf : buildFields model.fieldsDict model.fieldsOrdered [] with _ | fields
    · rw [hbf] at h
      cases h
    · rw [hbf] at h
      cases h
      refine ⟨rfl, fun _ => rfl, fun hc => Bool.noConfusion hc, rfl, rfl, rfl, rfl⟩

theorem odKeys_map_snd (l : List (String × α)) (g : α → β) :
    odKeys (l.map (fun p => (p.1, g p.2))) = odKeys l := by
  simp [odKeys, Function.comp]

/-! ### Concrete sample data for the witnesses -/

/-- A plain concrete IntField definition. -/
def sampleField : ModelField where
  ftype := .intField
  name := "count"
  required := true
  default := .pyNone
  null := false
  choices := []
  unique := false
  primary_key := false
  db_field := "count"
  verbose_name := ""
  help_text := ""
  validation := none
  max_length := none
  min_length := none
  max_value := none
  min_value := none
  precision := 2
  owner_default_manager := 0

/-- A concrete primary-key field definition named `id`. -/
def sampleIdField : ModelField :=
  { sampleField with name := "id", db_field := "_id", primary_key := true }

/-- A concrete non-embedded model with one declared field `count` whose
identity field `id` lives in `_fields` under the metadata key. -/
def sampleModel : Model where
  isEmbeddedDocument := false
  idField := "id"
  fieldsDict := [("count", sampleField), ("id", sampleIdField)]
  fieldsOrdered := ["count"]

/-- The FieldInfo value `get_field_info` returns for `sampleModel`. -/
def sampleFieldInfo : FieldInfo where
  pk := some sampleIdField
  fields := [("count", sampleField)]
  forward_relations := []
  reverse_relations := []
  fields_and_pk :=
    [("pk", some sampleIdField), ("id", some sampleIdField), ("count", some sampleField)]
  relations := []

/-- A concrete embedded-document model. -/
def embModel : Model where
  isEmbeddedDocument := true
  idField := "id"
  fieldsDict := [("count", sampleField)]
  fieldsOrdered := ["count"]

/-- The FieldInfo value `get_field_info` returns for `embModel`. -/
def embFieldInfo : FieldInfo where
  pk := none
  fields := [("count", sampleField)]
  forward_relations := []
  reverse_relations := []
  fields_and_pk := [("pk", none), ("count", some sampleField)]
  relations := []

/-- A declared (non-primary-key) field genuinely named `pk`. -/
def pkDeclField : ModelField :=
  { sampleField with name := "pk", db_field := "pk" }

/-- A model that genuinely declares a field named `pk`. -/
def pkCollideModel : Model where
  isEmbeddedDocument := false
  idField := "id"
  fieldsDict := [("pk", pkDeclField), ("id", sampleIdField)]
  fieldsOrdered := ["pk"]

/-- The FieldInfo value `get_field_info` returns for `pkCollideModel`:
the declared `pk` field overwrites the primary-key entry. -/
def pkCollideInfo : FieldInfo where
  pk := some sampleIdField
  fields := [("pk", pkDeclField)]
  forward_relations := []
  reverse_relations := []
  fields_and_pk := [("pk", some pkDeclField), ("id", some sampleIdField)]
  relations := []

/-! ### Claims about get_field_info -/

/-- C8: for every model class, the FieldInfo returned by `get_field_info`
has `forward_relations`, `reverse_relations` and `relations` all equal to
empty mappings. -/
theorem C8_relations_always_empty (model : Model) (fi : FieldInfo)
    (h : get_field_info model = some fi) :
    fi.forward_relations = [] ∧ fi.reverse_relations = [] ∧ fi.relations = [] := by
  obtain ⟨-, -, -, h1, h2, h3, -⟩ := get_field_info_char model fi h
  exact ⟨h1, h2, h3⟩

/-- Witness for C8 at the concrete `sampleModel`. -/
theorem C8_relations_always_empty_witness :
    get_field_info sampleModel = some sampleFieldInfo ∧
    (sampleFieldInfo.forward_relations = [] ∧ sampleFieldInfo.reverse_relations = [] ∧
      sampleFieldInfo.relations = []) :=
  ⟨by decide, C8_relations_always_empty sampleModel sampleFieldInfo (by decide)⟩

/-- C9: for every embedded/sub-document model class the `pk` attribute of
the returned FieldInfo is `none`; for every non-embedded model class `pk`
is the field definition stored in `_fields` under the `_meta['id_field']`
key. -/
theorem C9_pk_absent_or_id_field (model : Model) (fi : FieldInfo)
    (h : get_field_info model = some fi) :
    (model.isEmbeddedDocument = true → fi.pk = none) ∧
    (model.isEmbeddedDocument = false →
      ∀ f, odLookup model.fieldsDict model.idField = some f → fi.pk = some f) := by
  obtain ⟨-, hemb, hnon, -, -, -, -⟩ := get_field_info_char model fi h
  refine ⟨hemb, fun hm f hf => ?_⟩
  obtain ⟨heq, -⟩ := hnon hm
  rw [← heq, hf]

/-- Witness for C9 at the concrete `embModel` and `sampleModel`. -/
theorem C9_pk_absent_or_id_field_witness :
    (get_field_info embModel = some embFieldInfo ∧ embFieldInfo.pk = none) ∧
    (get_field_info sampleModel = some sampleFieldInfo ∧
      odLookup sampleModel.fieldsDict sampleModel.idField = some sampleIdField ∧
      sampleFieldInfo.pk = some sampleIdField) :=
  ⟨⟨by decide, (C9_pk_absent_or_id_field embModel embFieldInfo (by decide)).1 rfl⟩,
   ⟨by decide, by decide,
    (C9_pk_absent_or_id_field sampleModel sampleFieldInfo (by decide)).2 rfl
      sampleIdField (by decide)⟩⟩

/-- C10: when a model genuinely declares a field named `pk`, the
`fields` merge into `fields_and_pk` happens after the two primary-key
assignments, so the returned `fields_and_pk` maps the key `pk` to the
declared field's definition, overwriting the primary-key entry. -/
theorem C10_pk_key_overwritten (model : Model) (fi : FieldInfo) (fpk : ModelField)
    (h : get_field_info model = some fi)
    (hnd : model.fieldsOrdered.Nodup)
    (hmem : "pk" ∈ model.fieldsOrdered)
    (hlk : odLookup model.fieldsDict "pk" = some fpk) :
    odLookup fi.fields_and_pk "pk" = some (some fpk) := by
  obtain ⟨hbf, -, -, -, -, -, hfp⟩ := get_field_info_char model fi h
  obtain ⟨hkeys, hsound⟩ :=
    buildFields_sound model.fieldsDict model.fieldsOrdered [] fi.fields hbf hnd
      (by intro n _ hn; simp [odKeys] at hn)
  rw [show odKeys ([] : List (String × ModelField)) = [] from rfl, List.nil_append] at hkeys
  have hmem2 : "pk" ∈ odKeys fi.fields := hkeys ▸ hmem
  obtain ⟨f0, hp⟩ : ∃ x, ("pk", x) ∈ fi.fields := by simpa [odKeys] using hmem2
  rcases hsound "pk" f0 hp with hin | hlk2
  · cases hin
  · rw [hlk] at hlk2
    have hval : f0 = fpk := by
      injection hlk2 with hh
      exact hh.symm
    have hmentry : ("pk", some fpk) ∈ fi.fields.map (fun q => (q.1, some q.2)) := by
      refine List.mem_map.mpr ⟨("pk", f0), hp, ?_⟩
      rw [hval]
    rw [hfp]
    refine odLookup_odUpdate_mem _ _ _ _ hmentry ?_
    rw [odKeys_map_snd, hkeys]
    exact hnd

/-- Witness for C10 at the concrete `pkCollideModel`. -/
theorem C10_pk_key_overwritten_witness :
    get_field_info pkCollideModel = some pkCollideInfo ∧
    pkCollideModel.fieldsOrdered.Nodup ∧
    "pk" ∈ pkCollideModel.fieldsOrdered ∧
    odLookup pkCollideModel.fieldsDict "pk" = some pkDeclField ∧
    odLookup pkCollideInfo.fields_and_pk "pk" = some (some pkDeclField) :=
  ⟨by decide, by decide, by decide, by decide,
   C10_pk_key_overwritten pkCollideModel pkCollideInfo pkDeclField
     (by decide) (by decide) (by decide) (by decide)⟩

/-- C4 counterexample: `pkCollideModel` declares N = 1 field (named `pk`),
its primary key is present and the pk's own name `id` does not collide
with any declared field name, yet `fields_and_pk` has 2 entries, not
N + 2 = 3: the literal key `pk` collides with the declared field `pk`,
a case the claim's exception clause does not cover. -/
theorem C4_counterexample :
    pkCollideModel.fieldsOrdered.Nodup ∧
    pkCollideModel.isEmbeddedDocument = false ∧
    get_field_info pkCollideModel = some pkCollideInfo ∧
    pkCollideInfo.pk = some sampleIdField ∧
    sampleIdField.name = "id" ∧
    ¬ "id" ∈ pkCollideModel.fieldsOrdered ∧
    pkCollideInfo.fields.length = 1 ∧
    ¬ pkCollideInfo.fields_and_pk.length = 1 + 2 := by decide

/-- C4 (amended): for every model whose extractor call succeeds, with
distinct declared field names, `fields` has exactly N entries in
declaration order, each mapping a field name to its `_fields` definition;
and when the primary key is present, `fields_and_pk` has N + 2 entries
(the N fields, the literal key `pk`, and the pk's own-name key, the
latter two mapping to the same pk definition) provided the pk's own name
collides with no declared field name, no declared field is named `pk`,
and the pk's own name is not itself `pk` (each such collision merges
entries and lowers the count). -/
theorem C4_field_counts (model : Model) (fi : FieldInfo) (fpk : ModelField)
    (h : get_field_info model = some fi)
    (hnd : model.fieldsOrdered.Nodup)
    (hemb : model.isEmbeddedDocument = false)
    (hpk : odLookup model.fieldsDict model.idField = some fpk)
    (hname : fpk.name ∉ model.fieldsOrdered)
    (hpknot : "pk" ∉ model.fieldsOrdered)
    (hnp : fpk.name ≠ "pk") :
    odKeys fi.fields = model.fieldsOrdered ∧
    fi.fields.length = model.fieldsOrdered.length ∧
    (∀ n f, (n, f) ∈ fi.fields → odLookup model.fieldsDict n = some f) ∧
    fi.fields_and_pk.length = model.fieldsOrdered.length + 2 ∧
    odLookup fi.fields_and_pk "pk" = some (some fpk) ∧
    odLookup fi.fields_and_pk fpk.name = some (some fpk) := by
  obtain ⟨hbf, -, hnon, -, -, -, hfp⟩ := get_field_info_char model fi h
  obtain ⟨heq, -⟩ := hnon hemb
  have hpkfi : fi.pk = some fpk := by rw [← heq, hpk]
  obtain ⟨hkeys, hsound⟩ :=
    buildFields_sound model.fieldsDict model.fieldsOrdered [] fi.fields hbf hnd
      (by intro n _ hn; simp [odKeys] at hn)
  rw [show odKeys ([] : List (String × ModelField)) = [] from rfl, List.nil_append] at hkeys
  have hlen : fi.fields.length = model.fieldsOrdered.length := by
    rw [← hkeys, odKeys, List.length_map]
  have hval : ∀ n f, (n, f) ∈ fi.fields → odLookup model.fieldsDict n = some f := by
    intro n f hf
    rcases hsound n f hf with hin | hok
    · cases hin
    · exact hok
  have hbase1 : odAssign ([] : List (String × Option ModelField)) "pk" (some fpk) =
      [("pk", some fpk)] := rfl
  have hbase2 : odAssign [("pk", some fpk)] fpk.name (some fpk) =
      [("pk", some fpk), (fpk.name, some fpk)] := by
    rw [odAssign_of_not_mem]
    · rfl
    · intro hc
      have : fpk.name = "pk" := by simpa [odKeys] using hc
      exact hnp this
  have hfp2 : fi.fields_and_pk =
      odUpdate [("pk", some fpk), (fpk.name, some fpk)]
        (fi.fields.map (fun p => (p.1, some p.2))) := by
    rw [hfp, hpkfi]
    rw [show pkNameAttr (some fpk) = fpk.name from rfl, hbase1, hbase2]
  have hmkeys : odKeys (fi.fields.map (fun p => (p.1, some p.2))) =
      model.fieldsOrdered := by
    rw [odKeys_map_snd, hkeys]
  have hdisj : ∀ k ∈ odKeys (fi.fields.map (fun p => (p.1, some p.2))),
      k ∉ odKeys [("pk", some fpk), (fpk.name, some fpk)] := by
    intro k hk
    rw [hmkeys] at hk
    intro hc
    rcases (by simpa [odKeys] using hc : k = "pk" ∨ k = fpk.name) with rfl | rfl
    · exact hpknot hk
    · exact hname hk
  have happ := odUpdate_append _ _ hdisj (hmkeys ▸ hnd)
  refine ⟨hkeys, hlen, hval, ?_, ?_, ?_⟩
  · rw [hfp2, happ, List.length_append, List.length_map, hlen]
    simp [Nat.add_comm]
  · rw [hfp2, odLookup_odUpdate_not_mem _ _ _ (by rw [hmkeys]; exact hpknot)]
    simp [odLookup, List.find?]
  · rw [hfp2, odLookup_odUpdate_not_mem _ _ _ (by rw [hmkeys]; exact hname)]
    have hb : ("pk" == fpk.name) = false := beq_eq_false_iff_ne.mpr (Ne.symm hnp)
    simp [odLookup, List.find?, hb]

/-- Witness for C4 at the concrete `sampleModel` (N = 1). -/
theorem C4_field_counts_witness :
    get_field_info sampleModel = some sampleFieldInfo ∧
    sampleModel.fieldsOrdered.Nodup ∧
    sampleModel.isEmbeddedDocument = false ∧
    odLookup sampleModel.fieldsDict sampleModel.idField = some sampleIdField ∧
    ¬ sampleIdField.name ∈ sampleModel.fieldsOrdered ∧
    ¬ "pk" ∈ sampleModel.fieldsOrdered ∧
    ¬ sampleIdField.name = "pk" ∧
    odKeys sampleFieldInfo.fields = ["count"] ∧
    sampleFieldInfo.fields_and_pk.length = 1 + 2 :=
  ⟨by decide, by decide, by decide, by decide, by decide, by decide, by decide,
   (C4_field_counts sampleModel sampleFieldInfo sampleIdField (by decide) (by decide)
     (by decide) (by decide) (by decide) (by decide) (by decide)).1,
   by
    have hh := (C4_field_counts sampleModel sampleFieldInfo sampleIdField (by decide)
      (by decide) (by decide) (by decide) (by decide) (by decide) (by decide)).2.2.2.1
    simpa using hh⟩

/-! ### Claim about _resolve_model -/

/-- C3: a two-segment dotted string whose second segment is registered
resolves to exactly the registered class; a two-segment dotted string
whose second segment is unregistered raises `ImproperlyConfigured`; and
any other input (a string of the wrong shape, a non-class object, or a
class that is not a `BaseDocument` subclass) raises a `ValueError`
naming the offending input. -/
theorem C3_resolve_model (registry : List (String × PyClass)) :
    (∀ s app_name model_name c, pySplitDot s = [app_name, model_name] →
      get_document registry model_name = some c →
      _resolve_model registry (.str s) = .ok c) ∧
    (∀ s app_name model_name, pySplitDot s = [app_name, model_name] →
      get_document registry model_name = none →
      _resolve_model registry (.str s) =
        .error (.improperlyConfigured app_name model_name)) ∧
    (∀ s, (pySplitDot s).length ≠ 2 →
      _resolve_model registry (.str s) = .error (.valueError (.str s))) ∧
    (∀ c, c.isBaseDocumentSubclass = false →
      _resolve_model registry (.cls c) = .error (.valueError (.cls c))) ∧
    (∀ n, _resolve_model registry (.other n) = .error (.valueError (.other n))) := by
  refine ⟨?_, ?_, ?_, ?_, ?_⟩
  · intro s app_name model_name c hs hg
    simp [_resolve_model, hs, hg]
  · intro s app_name model_name hs hg
    simp [_resolve_model, hs, hg]
  · intro s hlen
    rcases hsp : pySplitDot s with _ | ⟨a, rest⟩
    · simp [_resolve_model, hsp]
    · rcases rest with _ | ⟨b, rest2⟩
      · simp [_resolve_model, hsp]
      · rcases rest2 with _ | ⟨c2, rest3⟩
        · exact absurd (by rw [hsp]; rfl) hlen
        · simp [_resolve_model, hsp]
  · intro c hc
    simp [_resolve_model, hc]
  · intro n
    rfl

/-- A registered concrete document class. -/
def demoDoc : PyClass := ⟨1, true⟩

/-- A concrete class that is not a `BaseDocument` subclass. -/
def demoPlainClass : PyClass := ⟨2, false⟩

/-- A concrete document registry with one registered name. -/
def demoRegistry : List (String × PyClass) := [("Doc", demoDoc)]

/-- Witness for C3 at concrete inputs covering all five cases. -/
theorem C3_resolve_model_witness :
    pySplitDot "app.Doc" = ["app", "Doc"] ∧
    get_document demoRegistry "Doc" = some demoDoc ∧
    _resolve_model demoRegistry (.str "app.Doc") = .ok demoDoc ∧
    pySplitDot "app.Nope" = ["app", "Nope"] ∧
    get_document demoRegistry "Nope" = none ∧
    _resolve_model demoRegistry (.str "app.Nope") =
      .error (.improperlyConfigured "app" "Nope") ∧
    (pySplitDot "nodots").length ≠ 2 ∧
    _resolve_model demoRegistry (.str "nodots") = .error (.valueError (.str "nodots")) ∧
    demoPlainClass.isBaseDocumentSubclass = false ∧
    _resolve_model demoRegistry (.cls demoPlainClass) =
      .error (.valueError (.cls demoPlainClass)) ∧
    _resolve_model demoRegistry (.other 5) = .error (.valueError (.other 5)) :=
  ⟨by decide, by decide,
   (C3_resolve_model demoRegistry).1 "app.Doc" "app" "Doc" demoDoc (by decide) (by decide),
   by decide, by decide,
   (C3_resolve_model demoRegistry).2.1 "app.Nope" "app" "Nope" (by decide) (by decide),
   by decide,
   (C3_resolve_model demoRegistry).2.2.1 "nodots" (by decide),
   by decide,
   (C3_resolve_model demoRegistry).2.2.2.1 demoPlainClass (by decide),
   (C3_resolve_model demoRegistry).2.2.2.2 5⟩

/-! ### Claims about get_field_kwargs -/

theorem odLookup_ite (c : Prop) [Decidable c] (d e : List (String × α)) (k : String) :
    odLookup (if c then d else e) k = if c then odLookup d k else odLookup e k := by
  split <;> rfl

/-- C6: for every decimal-typed field definition, `get_field_kwargs` sets
`decimal_places` to the declared precision and `max_digits` to the digit
length of the declared max value plus the precision when a max value is
declared, and to the fallback constant 65536 otherwise. -/
theorem C6_decimal_digits (nl : ModelField → String → Bool) (cf : String → String)
    (field_name : String) (mf : ModelField)
    (hdec : isDecimalField mf.ftype = true) :
    odLookup (get_field_kwargs nl cf field_name mf) "decimal_places" =
      some (KwargValue.vNat mf.precision) ∧
    (∀ v, mf.max_value = some v →
      odLookup (get_field_kwargs nl cf field_name mf) "max_digits" =
        some (KwargValue.vNat (pyLenStr v + mf.precision))) ∧
    (mf.max_value = none →
      odLookup (get_field_kwargs nl cf field_name mf) "max_digits" =
        some (KwargValue.vNat 65536)) := by
  obtain ⟨ft, nm, rq, df, nu, ch, un, pk2, db, vn, ht, vd, mxl, mnl, mxv, mnv, pr, mgr⟩ := mf
  simp only [ModelField.ftype] at hdec
  rcases mxl with _ | vmxl <;> rcases mnl with _ | vmnl <;>
    rcases mxv with _ | vmxv <;> rcases mnv with _ | vmnv <;>
    simp [get_field_kwargs, hdec, odLookup_ite, odLookup_odAssign_ne,
      odLookup_odAssign_self, odLookup_nil, ite_self]

theorem odKeys_nil : odKeys ([] : List (String × α)) = [] := rfl

theorem odKeys_ite (c : Prop) [Decidable c] (d e : List (String × α)) :
    odKeys (if c then d else e) = if c then odKeys d else odKeys e := by
  split <;> rfl

/-- A concrete `needs_label` stub returning false. -/
def nlConst : ModelField → String → Bool := fun _ _ => false

/-- A concrete `capfirst` stub. -/
def cfId : String → String := fun s => s

/-- A concrete decimal field flagged as primary key. -/
def decPkField : ModelField :=
  { sampleField with
    ftype := .decimalField, name := "price", db_field := "price",
    primary_key := true, max_value := some 999, precision := 2 }

/-- C1 counterexample: for the decimal primary-key field `decPkField`
(label and help text unset), the returned kwargs are not exactly
`model_field`/`read_only` (plus label/help_text): they also contain
`decimal_places` and `max_digits`, which the claim's exhaustive key list
does not allow. -/
theorem C1_counterexample :
    decPkField.primary_key = true ∧
    decPkField.verbose_name = "" ∧
    decPkField.help_text = "" ∧
    odKeys (get_field_kwargs nlConst cfId "price" decPkField) =
      ["model_field", "decimal_places", "max_digits", "read_only"] ∧
    ¬ "decimal_places" ∈ ["model_field", "read_only", "label", "help_text"] := by decide

/-- C1 (amended): for every field definition hitting the read-only
short-circuit (sequence field, primary key, or storage column `_id`),
`get_field_kwargs` returns a mapping containing exactly the keys
`model_field` and `read_only` (with `read_only` = true), plus `label`
and/or `help_text` when those were set before the short-circuit, plus
`decimal_places`/`max_digits` when the field is decimal-typed (the
decimal rule runs before the short-circuit), and containing none of the
keys `required`, `default`, `max_length`, `min_length`, `max_value`,
`min_value`. -/
theorem C1_read_only_short_circuit (nl : ModelField → String → Bool)
    (cf : String → String) (field_name : String) (mf : ModelField)
    (hro : (isSequenceField mf.ftype || mf.primary_key
      || (mf.db_field == "_id")) = true) :
    odLookup (get_field_kwargs nl cf field_name mf) "model_field" =
      some (KwargValue.vModelField mf) ∧
    odLookup (get_field_kwargs nl cf field_name mf) "read_only" =
      some (KwargValue.vBool true) ∧
    odLookup (get_field_kwargs nl cf field_name mf) "required" = none ∧
    odLookup (get_field_kwargs nl cf field_name mf) "default" = none ∧
    odLookup (get_field_kwargs nl cf field_name mf) "max_length" = none ∧
    odLookup (get_field_kwargs nl cf field_name mf) "min_length" = none ∧
    odLookup (get_field_kwargs nl cf field_name mf) "max_value" = none ∧
    odLookup (get_field_kwargs nl cf field_name mf) "min_value" = none ∧
    ((mf.verbose_name != "" && nl mf field_name) = true →
      odLookup (get_field_kwargs nl cf field_name mf) "label" =
        some (KwargValue.vStr (cf mf.verbose_name))) ∧
    ((mf.verbose_name != "" && nl mf field_name) = false →
      odLookup (get_field_kwargs nl cf field_name mf) "label" = none) ∧
    ((mf.help_text != "") = true →
      odLookup (get_field_kwargs nl cf field_name mf) "help_text" =
        some (KwargValue.vStr mf.help_text)) ∧
    ((mf.help_text != "") = false →
      odLookup (get_field_kwargs nl cf field_name mf) "help_text" = none) ∧
    (isDecimalField mf.ftype = false →
      odKeys (get_field_kwargs nl cf field_name mf) ⊆
        ["model_field", "label", "help_text", "read_only"]) ∧
    odKeys (get_field_kwargs nl cf field_name mf) ⊆
      ["model_field", "label", "help_text", "decimal_places", "max_digits",
        "read_only"] := by
  by_cases hlab : (mf.verbose_name != "" && nl mf field_name) = true <;>
    by_cases hht : (mf.help_text != "") = true <;>
    by_cases hdec : isDecimalField mf.ftype = true <;>
    simp [get_field_kwargs, hro, hlab, hht, hdec, odLookup_ite,
      odLookup_odAssign_ne, odLookup_odAssign_self, odLookup_nil, ite_self,
      odKeys_odAssign, odKeys_nil, odKeys_ite, List.subset_def]

/-- Witness for C1 at the concrete primary-key field `sampleIdField`. -/
theorem C1_read_only_short_circuit_witness :
    (isSequenceField sampleIdField.ftype || sampleIdField.primary_key
      || (sampleIdField.db_field == "_id")) = true ∧
    odLookup (get_field_kwargs nlConst cfId "id" sampleIdField) "read_only" =
      some (KwargValue.vBool true) ∧
    odLookup (get_field_kwargs nlConst cfId "id" sampleIdField) "required" = none :=
  ⟨by decide,
   (C1_read_only_short_circuit nlConst cfId "id" sampleIdField (by decide)).2.1,
   (C1_read_only_short_circuit nlConst cfId "id" sampleIdField (by decide)).2.2.1⟩

/-- A concrete decimal field with no declared max value. -/
def decFieldNoMax : ModelField :=
  { sampleField with
    ftype := .decimalField, name := "ratio2", db_field := "ratio2", precision := 2 }

/-- Witness for C6 at `decPkField` (max_value 999, precision 2, so
max_digits = 3 + 2 = 5) and at `decFieldNoMax` (fallback 65536). -/
theorem C6_decimal_digits_witness :
    isDecimalField decPkField.ftype = true ∧
    decPkField.max_value = some 999 ∧
    pyLenStr 999 + decPkField.precision = 5 ∧
    odLookup (get_field_kwargs nlConst cfId "price" decPkField) "decimal_places" =
      some (KwargValue.vNat 2) ∧
    odLookup (get_field_kwargs nlConst cfId "price" decPkField) "max_digits" =
      some (KwargValue.vNat (pyLenStr 999 + decPkField.precision)) ∧
    isDecimalField decFieldNoMax.ftype = true ∧
    decFieldNoMax.max_value = none ∧
    odLookup (get_field_kwargs nlConst cfId "ratio2" decFieldNoMax) "max_digits" =
      some (KwargValue.vNat 65536) :=
  ⟨by decide, by decide, by decide,
   (C6_decimal_digits nlConst cfId "price" decPkField (by decide)).1,
   (C6_decimal_digits nlConst cfId "price" decPkField (by decide)).2.1 999 (by decide),
   by decide, by decide,
   (C6_decimal_digits nlConst cfId "ratio2" decFieldNoMax (by decide)).2.2 (by decide)⟩

/-- A concrete IntField with the falsy declared default 0. -/
def zeroDefaultField : ModelField :=
  { sampleField with default := .pyInt 0 }

/-- C2 counterexample: `zeroDefaultField` declares `default = 0` and is
not a container field, yet `get_field_kwargs` leaves `required` at the
field's own flag (true) and attaches no `default` key, because the code
guards both rules with Python truthiness (`if model_field.default:`) and
0 is falsy. -/
theorem C2_counterexample :
    zeroDefaultField.default = PyValue.pyInt 0 ∧
    isComplexBaseField zeroDefaultField.ftype = false ∧
    zeroDefaultField.required = true ∧
    (isSequenceField zeroDefaultField.ftype || zeroDefaultField.primary_key
      || (zeroDefaultField.db_field == "_id")) = false ∧
    odLookup (get_field_kwargs nlConst cfId "count" zeroDefaultField) "required" =
      some (KwargValue.vBool true) ∧
    odLookup (get_field_kwargs nlConst cfId "count" zeroDefaultField) "default" =
      none := by decide

/-- C2 (amended): for every non-read-only field definition whose declared
default value is truthy (the code guards both rules with Python
truthiness, so falsy defaults such as 0, "" or False are ignored) and
that is not a container/complex-typed field, `get_field_kwargs` returns
`required` = false and `default` = the declared default value. -/
theorem C2_truthy_default (nl : ModelField → String → Bool) (cf : String → String)
    (field_name : String) (mf : ModelField)
    (hro : (isSequenceField mf.ftype || mf.primary_key
      || (mf.db_field == "_id")) = false)
    (hdef : truthy mf.default = true)
    (hcx : isComplexBaseField mf.ftype = false) :
    odLookup (get_field_kwargs nl cf field_name mf) "required" =
      some (KwargValue.vBool false) ∧
    odLookup (get_field_kwargs nl cf field_name mf) "default" =
      some (KwargValue.vPy mf.default) := by
  obtain ⟨ft, nm, rq, df, nu, ch, un, pk2, db, vn, ht, vd, mxl, mnl, mxv, mnv, pr, mgr⟩ := mf
  simp only [ModelField.ftype, ModelField.primary_key, ModelField.db_field,
    ModelField.default] at hro hdef hcx
  rcases mxl with _ | vmxl <;> rcases mnl with _ | vmnl <;>
    rcases mxv with _ | vmxv <;> rcases mnv with _ | vmnv <;>
    simp [get_field_kwargs, hro, hdef, hcx, odLookup_ite,
      odLookup_odAssign_ne, odLookup_odAssign_self, odLookup_nil, ite_self]

/-- A concrete IntField with the truthy declared default 1. -/
def oneDefaultField : ModelField :=
  { sampleField with default := .pyInt 1 }

/-- Witness for the amended C2 at `oneDefaultField`. -/
theorem C2_truthy_default_witness :
    (isSequenceField oneDefaultField.ftype || oneDefaultField.primary_key
      || (oneDefaultField.db_field == "_id")) = false ∧
    truthy oneDefaultField.default = true ∧
    isComplexBaseField oneDefaultField.ftype = false ∧
    odLookup (get_field_kwargs nlConst cfId "count" oneDefaultField) "required" =
      some (KwargValue.vBool false) ∧
    odLookup (get_field_kwargs nlConst cfId "count" oneDefaultField) "default" =
      some (KwargValue.vPy (PyValue.pyInt 1)) :=
  ⟨by decide, by decide, by decide,
   (C2_truthy_default nlConst cfId "count" oneDefaultField
     (by decide) (by decide) (by decide)).1,
   (C2_truthy_default nlConst cfId "count" oneDefaultField
     (by decide) (by decide) (by decide)).2⟩

/-- C5: for every non-read-only field definition that declares a
non-empty set of allowed choices, `get_field_kwargs` attaches `choices`
equal to that set and returns before the length/bounds/uniqueness
rules, so `max_length`, `min_length`, `max_value`, `min_value` and
`validators` are all absent. -/
theorem C5_choices_short_circuit (nl : ModelField → String → Bool)
    (cf : String → String) (field_name : String) (mf : ModelField)
    (hro : (isSequenceField mf.ftype || mf.primary_key
      || (mf.db_field == "_id")) = false)
    (hch : mf.choices ≠ []) :
    odLookup (get_field_kwargs nl cf field_name mf) "choices" =
      some (KwargValue.vChoices mf.choices) ∧
    odLookup (get_field_kwargs nl cf field_name mf) "max_length" = none ∧
    odLookup (get_field_kwargs nl cf field_name mf) "min_length" = none ∧
    odLookup (get_field_kwargs nl cf field_name mf) "max_value" = none ∧
    odLookup (get_field_kwargs nl cf field_name mf) "min_value" = none ∧
    odLookup (get_field_kwargs nl cf field_name mf) "validators" = none := by
  obtain ⟨ft, nm, rq, df, nu, ch, un, pk2, db, vn, ht, vd, mxl, mnl, mxv, mnv, pr, mgr⟩ := mf
  simp only [ModelField.ftype, ModelField.primary_key, ModelField.db_field,
    ModelField.choices] at hro hch
  rcases ch with _ | ⟨c0, cr⟩
  · exact absurd rfl hch
  · simp [get_field_kwargs, hro, odLookup_ite,
      odLookup_odAssign_ne, odLookup_odAssign_self, odLookup_nil, ite_self]

/-- A concrete choice-constrained IntField. -/
def choicesField : ModelField :=
  { sampleField with choices := [.pyInt 1, .pyInt 2] }

/-- Witness for C5 at `choicesField`. -/
theorem C5_choices_short_circuit_witness :
    (isSequenceField choicesField.ftype || choicesField.primary_key
      || (choicesField.db_field == "_id")) = false ∧
    choicesField.choices ≠ [] ∧
    odLookup (get_field_kwargs nlConst cfId "count" choicesField) "choices" =
      some (KwargValue.vChoices [.pyInt 1, .pyInt 2]) ∧
    odLookup (get_field_kwargs nlConst cfId "count" choicesField) "validators" =
      none :=
  ⟨by decide, by decide,
   (C5_choices_short_circuit nlConst cfId "count" choicesField
     (by decide) (by decide)).1,
   (C5_choices_short_circuit nlConst cfId "count" choicesField
     (by decide) (by decide)).2.2.2.2.2⟩

/-- C7: for every non-read-only string field declared unique with no
choices, no default and no built-in validation function,
`get_field_kwargs` returns a `validators` list of length 1 holding the
uniqueness validator parameterized by the owning collection's default
manager. -/
theorem C7_unique_validator (nl : ModelField → String → Bool)
    (cf : String → String) (field_name : String) (mf : ModelField)
    (hro : (isSequenceField mf.ftype || mf.primary_key
      || (mf.db_field == "_id")) = false)
    (hch : mf.choices = [])
    (hdf : mf.default = PyValue.pyNone)
    (hvd : mf.validation = none)
    (hun : mf.unique = true)
    (hstr : isStringField mf.ftype = true) :
    odLookup (get_field_kwargs nl cf field_name mf) "validators" =
      some (KwargValue.vValidators
        [Validator.unique mf.owner_default_manager none]) := by
  obtain ⟨ft, nm, rq, df, nu, ch, un, pk2, db, vn, ht, vd, mxl, mnl, mxv, mnv, pr, mgr⟩ := mf
  simp only [ModelField.ftype, ModelField.primary_key, ModelField.db_field,
    ModelField.choices, ModelField.default, ModelField.validation,
    ModelField.unique, ModelField.owner_default_manager] at hro hch hdf hvd hun hstr ⊢
  subst hch
  subst hdf
  subst hvd
  subst hun
  rcases mxl with _ | vmxl <;> rcases mnl with _ | vmnl <;>
    rcases mxv with _ | vmxv <;> rcases mnv with _ | vmnv <;>
    simp [get_field_kwargs, hro, hstr, odLookup_ite,
      odLookup_odAssign_ne, odLookup_odAssign_self, odLookup_nil, ite_self]

/-- A concrete unique StringField with no choices, default or validation. -/
def uniqueStrField : ModelField :=
  { sampleField with
    ftype := .stringField, name := "slug", db_field := "slug",
    unique := true, owner_default_manager := 7 }

/-- Witness for C7 at `uniqueStrField`. -/
theorem C7_unique_validator_witness :
    (isSequenceField uniqueStrField.ftype || uniqueStrField.primary_key
      || (uniqueStrField.db_field == "_id")) = false ∧
    uniqueStrField.choices = [] ∧
    uniqueStrField.default = PyValue.pyNone ∧
    uniqueStrField.validation = none ∧
    uniqueStrField.unique = true ∧
    isStringField uniqueStrField.ftype = true ∧
    odLookup (get_field_kwargs nlConst cfId "slug" uniqueStrField) "validators" =
      some (KwargValue.vValidators [Validator.unique 7 none]) :=
  ⟨by decide, by decide, by decide, by decide, by decide, by decide,
   C7_unique_validator nlConst cfId "slug" uniqueStrField
     (by decide) (by decide) (by decide) (by decide) (by decide) (by decide)⟩
